import Mathlib

/-!
Shallow embedding of the Reddit-CBL discovery/queue core:
`reddit_subreddit_scraper.py` (score / timestamp / post-id parsing, age
filter, insert-or-ignore store, batch selection) and
`reddit_commenter/db.py` (claim query, success/failure acknowledgement).

Python strings are modelled as `List Char`; machine time as integer
seconds since the Unix epoch; the `reddit_posts` table as a `List Row`.
Python string primitives (`strip`, `lower`, `replace`, `split`,
`float`, `int`) are modelled by explicit structural recursions below.
-/

namespace RedditCBL

/-! ### Python string primitives -/

/-- Whitespace characters stripped by Python `str.strip()` (ASCII fragment). -/
def isPySpace (c : Char) : Bool :=
  c = ' ' || c = '\t' || c = '\n' || c = '\r' || c = '\x0b' || c = '\x0c'

/-- Python `str.strip()`: drop leading and trailing whitespace. -/
def pyStrip (l : List Char) : List Char :=
  ((l.dropWhile isPySpace).reverse.dropWhile isPySpace).reverse

/-- ASCII lowering of one character, as Python `str.lower()` does on ASCII. -/
def pyLowerChar (c : Char) : Char :=
  if 'A' ≤ c ∧ c ≤ 'Z' then Char.ofNat (c.toNat + 32) else c

/-- Python `str.lower()` (ASCII fragment). -/
def pyLower (l : List Char) : List Char := l.map pyLowerChar

/-- Fuel-indexed worker for `pyReplace`; the fuel starts at the string
length, which bounds the number of recursion steps. -/
def replaceFuel (pat rep : List Char) : Nat → List Char → List Char
  | 0, s => s
  | _ + 1, [] => []
  | fuel + 1, c :: cs =>
    if pat ≠ [] ∧ pat.isPrefixOf (c :: cs) then
      rep ++ replaceFuel pat rep fuel ((c :: cs).drop pat.length)
    else
      c :: replaceFuel pat rep fuel cs

/-- Python `str.replace(pat, rep)`: replace every (left-to-right,
non-overlapping) occurrence of a non-empty pattern. -/
def pyReplace (s pat rep : List Char) : List Char :=
  replaceFuel pat rep s.length s

/-- The suffix of `s` strictly after the first occurrence of `pat`
(`none` when `pat` does not occur): models the combination of
Python's `pat in s` test with `s.split(pat)[1]` as used in the source. -/
def suffixAfterFirst (pat : List Char) : List Char → Option (List Char)
  | [] => if pat.isPrefixOf [] then some ([].drop pat.length) else none
  | c :: cs =>
    if pat.isPrefixOf (c :: cs) then some ((c :: cs).drop pat.length)
    else suffixAfterFirst pat cs

/-- Numeric value of a digit list (most significant first). -/
def digitsToNat (l : List Char) : Nat :=
  l.foldl (fun acc c => 10 * acc + (c.toNat - '0'.toNat)) 0

/-- Python `float()` on the sign/digits/point/digits/exponent fragment
(the only shapes reachable from the scraper's score strings):
optional `+`/`-` sign, then digits with at most one decimal point and
at least one digit, then an optional `e`/`E` exponent with optional
sign and at least one digit.  The value is returned as an exact
decimal `(num, exp10)` with value `num * 10 ^ exp10` (`num` carries the
sign, `exp10` the decimal-point and exponent shifts); the exact decimal
stands in for the IEEE double, which agrees with it after the final
truncation on every score string at issue here. -/
def pyFloat (s : List Char) : Option (ℤ × ℤ) :=
  let t := pyStrip s
  let (sign, t) :=
    match t with
    | '-' :: rest => ((-1 : ℤ), rest)
    | '+' :: rest => ((1 : ℤ), rest)
    | _ => ((1 : ℤ), t)
  let intPart := t.takeWhile Char.isDigit
  let t := t.dropWhile Char.isDigit
  let (fracPart, t) :=
    match t with
    | '.' :: rest => (rest.takeWhile Char.isDigit, rest.dropWhile Char.isDigit)
    | _ => ([], t)
  if intPart = [] ∧ fracPart = [] then none
  else
    let num : ℤ := sign * (digitsToNat (intPart ++ fracPart) : ℤ)
    match t with
    | [] => some (num, -(fracPart.length : ℤ))
    | e :: rest =>
      if e = 'e' ∨ e = 'E' then
        let (esign, rest) :=
          match rest with
          | '-' :: r => ((-1 : ℤ), r)
          | '+' :: r => ((1 : ℤ), r)
          | _ => ((1 : ℤ), rest)
        let eDigits := rest.takeWhile Char.isDigit
        let rest := rest.dropWhile Char.isDigit
        if eDigits = [] ∨ rest ≠ [] then none
        else some (num, esign * (digitsToNat eDigits : ℤ) - (fracPart.length : ℤ))
      else none

/-- Python `int()` applied to the exact decimal `num * 10 ^ exp10`:
truncation toward zero. -/
def decTruncToInt (num exp10 : ℤ) : ℤ :=
  if 0 ≤ exp10 then num * (10 : ℤ) ^ exp10.toNat
  else if num < 0 then -(((-num).toNat / 10 ^ (-exp10).toNat : ℕ) : ℤ)
  else ((num.toNat / 10 ^ (-exp10).toNat : ℕ) : ℤ)

/-! ### `parse_score` (reddit_subreddit_scraper.py, lines 71–96) -/

/-- `parse_score(score_attr)`: `None`/empty → 0; strip + lower; `•`/`-`
→ 0; remove the tokens `points`, `point`, `votes`, `vote` and strip
again; a trailing `k`/`m` sets a ×1000/×1000000 multiplier; parse the
remainder as a float and truncate, any parse failure yielding 0. -/
def parse_score (score_attr : Option String) : ℤ :=
  match score_attr with
  | none => 0
  | some s =>
    if s = "" then 0
    else
      let cleaned := pyLower (pyStrip s.toList)
      if cleaned = [] ∨ cleaned = ['•'] ∨ cleaned = ['-'] then 0
      else
        let cleaned := pyReplace cleaned "points".toList []
        let cleaned := pyReplace cleaned "point".toList []
        let cleaned := pyReplace cleaned "votes".toList []
        let cleaned := pyReplace cleaned "vote".toList []
        let cleaned := pyStrip cleaned
        let pair :=
          if cleaned ≠ [] ∧ cleaned.getLast? = some 'k' then
            ((3 : ℤ), cleaned.dropLast)
          else if cleaned ≠ [] ∧ cleaned.getLast? = some 'm' then
            ((6 : ℤ), cleaned.dropLast)
          else ((0 : ℤ), cleaned)
        match pyFloat pair.2 with
        | some fv => decTruncToInt fv.1 (fv.2 + pair.1)
        | none => 0

/-! ### The `reddit_posts` table and its operations
(`reddit_subreddit_scraper.py` lines 54–68, `reddit_commenter/db.py`) -/

/-- One row of the `reddit_posts` table.  Instants (`created_at`,
`seen_at`) are UTC seconds since the Unix epoch; `title` is nullable
(the scraper's INSERT does not set it). -/
structure Row where
  id : ℕ
  subreddit : String
  post_id : String
  post_url : String
  title : Option String
  score : ℤ
  created_at : ℤ
  seen_at : ℤ
  commented : Bool
deriving DecidableEq, Repr

/-- `insert_reddit_post`: `INSERT INTO reddit_posts (subreddit, post_id,
post_url, score, created_at, seen_at, commented) VALUES (..., NOW(),
FALSE) ON CONFLICT (post_id) DO NOTHING`.  `now` models `NOW()`; the
serial `id` is the next unused value. -/
def insert_reddit_post (db : List Row) (subreddit post_id post_url : String)
    (score created_at now : ℤ) : List Row :=
  if db.any (fun r => r.post_id == post_id) then db
  else db ++ [{ id := db.length, subreddit := subreddit, post_id := post_id,
                post_url := post_url, title := none, score := score,
                created_at := created_at, seen_at := now, commented := false }]

/-- Eligibility test of the claim query: `commented = FALSE AND
created_at > NOW() - INTERVAL '1 hour' * max_age_hours` (strict). -/
def eligible (max_age_hours now : ℤ) (r : Row) : Bool :=
  !r.commented && decide (now - 3600 * max_age_hours < r.created_at)

/-- Ordering used by `ORDER BY seen_at DESC`. -/
def seenAtDesc (a b : Row) : Prop := b.seen_at ≤ a.seen_at

instance : DecidableRel seenAtDesc := fun _ _ => Int.decLe _ _

instance : IsTotal Row seenAtDesc := ⟨fun a b => (le_total b.seen_at a.seen_at)⟩

instance : IsTrans Row seenAtDesc := ⟨fun _ _ _ hab hbc => le_trans hbc hab⟩

/-- `fetch_next_posts_to_comment(pool, limit, post_max_age_hours)`:
`SELECT ... FROM reddit_posts WHERE commented = FALSE AND created_at >
NOW() - INTERVAL '1 hour' * $1 ORDER BY seen_at DESC LIMIT $2`. -/
def fetch_next_posts_to_comment (db : List Row) (limit : ℕ)
    (post_max_age_hours now : ℤ) : List Row :=
  (List.insertionSort seenAtDesc
    (db.filter (eligible post_max_age_hours now))).take limit

/-- `mark_commented(pool, row_id)`: `UPDATE reddit_posts SET commented =
TRUE WHERE id = $1`. -/
def mark_commented (db : List Row) (row_id : ℕ) : List Row :=
  db.map (fun r => if r.id = row_id then { r with commented := true } else r)

/-- `mark_failed(pool, row_id, error_message)`: `UPDATE reddit_posts SET
commented = FALSE WHERE id = $1` (the error message is not stored). -/
def mark_failed (db : List Row) (row_id : ℕ) : List Row :=
  db.map (fun r => if r.id = row_id then { r with commented := false } else r)

/-! ### Discovery-side age filter (`scrape_subreddit`, lines 214–217) -/

/-- `POST_MAX_AGE_HOURS = 4`. -/
def POST_MAX_AGE_HOURS : ℚ := 4

/-- `age_hours = (datetime.utcnow() - datetime_value).total_seconds() /
3600.0`, modelled exactly over the rationals. -/
def age_hours (now created_at : ℤ) : ℚ := ((now - created_at : ℤ) : ℚ) / 3600

/-- The scraper skips a post when `age_hours > POST_MAX_AGE_HOURS`;
`keep_by_age` is the complementary keep decision, for a general
horizon in hours. -/
def keep_by_age (now created_at : ℤ) (horizon : ℚ) : Bool :=
  !(decide (age_hours now created_at > horizon))

/-! ### Post-id extraction (`extract_post_id_from_url`, lines 129–136;
`scrape_subreddit`, lines 184–195) -/

/-- `extract_post_id_from_url(url)`: when `"/comments/"` occurs in the
URL, return `url.split("/comments/")[1].split("/")[0]`, else `None`. -/
def extract_post_id_from_url (url : String) : Option String :=
  match suffixAfterFirst "/comments/".toList url.toList with
  | some rest => some (String.mk (rest.takeWhile (fun c => c ≠ '/')))
  | none => none

/-- Python truthiness of an optional string attribute (`None` and the
empty string are falsy). -/
def truthy : Option String → Bool
  | none => false
  | some s => !(s == "")

/-- The post-id derivation of `scrape_subreddit`: an explicit truthy
`id` attribute is used, with a `"t3_"` origin prefix stripped;
otherwise the id is parsed out of the post URL. -/
def derive_post_id (id_attr : Option String) (post_url : String) : Option String :=
  if truthy id_attr && "t3_".toList.isPrefixOf (id_attr.getD "").toList then
    some (String.mk ((id_attr.getD "").toList.drop 3))
  else if truthy id_attr then id_attr
  else extract_post_id_from_url post_url

/-- The derived id after the scraper's `if not post_id: continue` guard:
a `None` or empty derivation means the record is skipped. -/
def final_post_id (id_attr : Option String) (post_url : String) : Option String :=
  match derive_post_id id_attr post_url with
  | some s => if s = "" then none else some s
  | none => none

/-! ### Batch selection (`get_subreddits_for_this_loop`, lines 248–253;
`run_scraper`, lines 260–271) -/

/-- `BATCH_MIN = 13`. -/
def BATCH_MIN : ℕ := 13

/-- `BATCH_MAX = 31`. -/
def BATCH_MAX : ℕ := 31

/-- The six configured subreddits. -/
def SUBREDDITS : List String :=
  ["GirlsWithGuns", "CountryGirls", "CamoGirls", "TacticalGirls",
   "Outdoors", "Bushcraft"]

/-- `batch_size = min(len(SUBREDDITS), random.randint(BATCH_MIN,
BATCH_MAX))` for a concrete draw of the random integer. -/
def batch_size (subs : List String) (draw : ℕ) : ℕ := min subs.length draw

/-- `get_subreddits_for_this_loop()`: empty source list yields the empty
batch; otherwise `random.sample(subs, batch_size)` is modelled as the
first `batch_size` entries of `perm`, an arbitrary reordering of `subs`
supplied by the random oracle (every `random.sample` outcome arises
this way, and conversely). -/
def get_subreddits_for_this_loop (subs : List String) (draw : ℕ)
    (perm : List String) : List String :=
  if subs.isEmpty then [] else perm.take (batch_size subs draw)

/-! ### Per-source description store -/

/-- A row of the per-source description table. -/
structure SourceDesc where
  source : String
  description : String
  updated_at : ℤ
deriving DecidableEq, Repr

/-- Modelled from the spec: `upsert_source_description(source, text)` is
named by the specification but absent from the sources in `src/`
("insert-or-update keyed by `source`; always overwrites with the
latest value and an updated timestamp").  An existing row keyed by
`source` is overwritten with the latest description and timestamp;
otherwise a new row is appended. -/
def upsert_source_description (store : List SourceDesc)
    (source text : String) (now : ℤ) : List SourceDesc :=
  if store.any (fun d => d.source == source) then
    store.map (fun d =>
      if d.source = source then
        { source := source, description := text, updated_at := now }
      else d)
  else store ++ [{ source := source, description := text, updated_at := now }]

/-! ### `parse_reddit_timestamp` (reddit_subreddit_scraper.py, lines 99–126) -/

/-- The result of `datetime.fromisoformat`: a calendar datetime with an
optional UTC offset in minutes. -/
structure PyDateTime where
  year : ℕ
  month : ℕ
  day : ℕ
  hour : ℕ
  minute : ℕ
  second : ℕ
  microsecond : ℕ
  offsetMinutes : Option ℤ
deriving DecidableEq, Repr

/-- Gregorian leap-year test. -/
def isLeapYear (y : ℕ) : Bool := (y % 4 = 0 && y % 100 ≠ 0) || y % 400 = 0

/-- Number of days in a month. -/
def daysInMonth (y m : ℕ) : ℕ :=
  if m = 2 then (if isLeapYear y then 29 else 28)
  else if m = 4 ∨ m = 6 ∨ m = 9 ∨ m = 11 then 30
  else 31

/-- Read exactly `n` leading digits. -/
def takeDigits (n : ℕ) (l : List Char) : Option (ℕ × List Char) :=
  let ds := l.take n
  if ds.length = n ∧ ds.all Char.isDigit then some (digitsToNat ds, l.drop n)
  else none

/-- Expect one specific leading character. -/
def expectChar (c : Char) : List Char → Option (List Char)
  | [] => none
  | x :: xs => if x = c then some xs else none

/-- Fractional seconds: `.`/`,` followed by one to six digits, scaled to
microseconds; absent fraction means zero. -/
def takeFrac : List Char → Option (ℕ × List Char)
  | c :: rest =>
    if c = '.' ∨ c = ',' then
      let ds := rest.takeWhile Char.isDigit
      if ds ≠ [] ∧ ds.length ≤ 6 then
        some (digitsToNat ds * 10 ^ (6 - ds.length), rest.drop ds.length)
      else none
    else some (0, c :: rest)
  | [] => some (0, [])

/-- Trailing UTC offset `±HH:MM` (must consume the rest of the input);
no offset yields a naive datetime. -/
def takeOffset : List Char → Option (Option ℤ)
  | [] => some none
  | c :: rest =>
    if c = '+' ∨ c = '-' then do
      let (oh, r) ← takeDigits 2 rest
      let r ← expectChar ':' r
      let (om, r) ← takeDigits 2 r
      guard (r = [] ∧ oh ≤ 23 ∧ om ≤ 59)
      pure (some ((if c = '-' then -1 else 1) * ((oh : ℤ) * 60 + om)))
    else none

/-- `datetime.fromisoformat` on the extended ISO-8601 fragment the
scraper feeds it: `YYYY-MM-DD`, optionally `T`/space then
`HH[:MM[:SS[.ffffff]]]`, optionally a `±HH:MM` offset; out-of-range
fields are rejected, as Python's validation does. -/
def pyFromIsoformatL (l : List Char) : Option PyDateTime := do
  let (y, r) ← takeDigits 4 l
  let r ← expectChar '-' r
  let (mo, r) ← takeDigits 2 r
  let r ← expectChar '-' r
  let (d, r) ← takeDigits 2 r
  guard (1 ≤ y ∧ 1 ≤ mo ∧ mo ≤ 12 ∧ 1 ≤ d ∧ d ≤ daysInMonth y mo)
  match r with
  | [] => pure ⟨y, mo, d, 0, 0, 0, 0, none⟩
  | sep :: r =>
    guard (sep = 'T' ∨ sep = ' ')
    let (h, r) ← takeDigits 2 r
    guard (h ≤ 23)
    match r with
    | ':' :: r => do
      let (mi, r) ← takeDigits 2 r
      guard (mi ≤ 59)
      match r with
      | ':' :: r => do
        let (sec, r) ← takeDigits 2 r
        guard (sec ≤ 59)
        let (us, r) ← takeFrac r
        let tz ← takeOffset r
        pure ⟨y, mo, d, h, mi, sec, us, tz⟩
      | r => do
        let tz ← takeOffset r
        pure ⟨y, mo, d, h, mi, 0, 0, tz⟩
    | r => do
      let tz ← takeOffset r
      pure ⟨y, mo, d, h, 0, 0, 0, tz⟩

/-- Days between a Gregorian civil date and 1970-01-01 (Hinnant's
`days_from_civil`, specialised to years ≥ 1). -/
def daysFromCivil (y mo d : ℕ) : ℤ :=
  let y2 := if mo ≤ 2 then y - 1 else y
  let era := y2 / 400
  let yoe := y2 - era * 400
  let mp := if mo ≤ 2 then mo + 9 else mo - 3
  let doy := (153 * mp + 2) / 5 + (d - 1)
  let doe := yoe * 365 + yoe / 4 - yoe / 100 + doy
  ((era * 146097 + doe : ℕ) : ℤ) - 719468

/-- `dt.astimezone(timezone.utc).replace(tzinfo=None)` for an aware
datetime, and the identity for a naive one, represented as UTC epoch
seconds (sub-second precision is immaterial at the granularity the
scraper compares instants). -/
def toNaiveUtcEpoch (dt : PyDateTime) : ℤ :=
  daysFromCivil dt.year dt.month dt.day * 86400
    + 3600 * (dt.hour : ℤ) + 60 * (dt.minute : ℤ) + (dt.second : ℤ)
    - 60 * dt.offsetMinutes.getD 0

/-- `parse_reddit_timestamp(timestamp_str)`: empty input fails; strip;
a trailing `Z` is replaced by `+00:00`; else a trailing `+0000` is
replaced by `+00:00`; the result is parsed with
`datetime.fromisoformat` and normalised to a naive UTC instant, a
parse error yielding `None`. -/
def parse_reddit_timestamp (s : String) : Option ℤ :=
  if s = "" then none
  else
    let t := pyStrip s.toList
    let t :=
      if "Z".toList.isSuffixOf t then t.dropLast ++ "+00:00".toList
      else if "+0000".toList.isSuffixOf t then
        t.take (t.length - 5) ++ "+00:00".toList
      else t
    (pyFromIsoformatL t).map toNaiveUtcEpoch

/-! ### Theorems -/

/-- C3 counterexample: `parse_score` maps the well-formed negative input
`"-5"` to `-5`, not to `0`, so the output is not always non-negative
and negative inputs do not normalize to `0`. -/
theorem parse_score_negative_counterexample :
    parse_score (some "-5") = -5 ∧ parse_score (some "-5") < 0 := by
  decide

/-- C3 (amended): `parse_score` always returns an integer without
raising; malformed or empty inputs normalize to `0` and the spec's
test vector holds (`"301" ↦ 301`, `"1.5k" ↦ 1500`, `"2m" ↦ 2000000`,
`"•"/""/"-"/"abc" ↦ 0`), but negative numeric inputs pass through as
negative integers (`"-5" ↦ -5`, `"-1.5k" ↦ -1500`), so the result is
not always non-negative. -/
theorem parse_score_spec_vector :
    parse_score (some "301") = 301 ∧
    parse_score (some "1.5k") = 1500 ∧
    parse_score (some "2m") = 2000000 ∧
    parse_score (some "•") = 0 ∧
    parse_score (some "") = 0 ∧
    parse_score (some "-") = 0 ∧
    parse_score (some "abc") = 0 ∧
    parse_score none = 0 ∧
    parse_score (some "12 points") = 12 ∧
    parse_score (some "-1.5k") = -1500 := by
  decide

/-- C4 counterexample: `parse_reddit_timestamp` rejects the all-digits
Unix-epoch input `"1700000000"` and the relative-age phrase
`"3 hours ago"`, both of which the claim says are accepted. -/
theorem parse_reddit_timestamp_epoch_relative_counterexample :
    parse_reddit_timestamp "1700000000" = none ∧
    parse_reddit_timestamp "3 hours ago" = none := by
  decide

/-- C4 (amended): `parse_reddit_timestamp` accepts ISO-8601 inputs,
repairing a trailing `Z` or colonless `+0000` offset to `+00:00` and
normalizing to a UTC instant (the two source-documented encodings
parse to the same instant); it has no epoch-numeric or relative-age
branch, so all-digits epoch inputs and relative phrases (recognized
unit or not) all report failure. -/
theorem parse_reddit_timestamp_iso_only :
    parse_reddit_timestamp "2025-11-19T23:20:32.653000+0000"
      = some (toNaiveUtcEpoch ⟨2025, 11, 19, 23, 20, 32, 653000, some 0⟩) ∧
    parse_reddit_timestamp "2025-11-19T23:20:32.653Z"
      = parse_reddit_timestamp "2025-11-19T23:20:32.653000+0000" ∧
    parse_reddit_timestamp "1700000000" = none ∧
    parse_reddit_timestamp "5 min" = none ∧
    parse_reddit_timestamp "just now" = none ∧
    parse_reddit_timestamp "" = none := by
  decide

/-- C6: the discovery-side age filter keeps a record exactly when the
age `(now − created_at)`, taken in hours, is at most the horizon
(inclusive boundary): a record created exactly `POST_MAX_AGE_HOURS`
(4 h = 14400 s) before now is kept, and one created one second
earlier is dropped. -/
theorem keep_by_age_spec :
    ∀ (now created_at : ℤ) (horizon : ℚ),
      (keep_by_age now created_at horizon = true ↔
        ((now - created_at : ℤ) : ℚ) ≤ 3600 * horizon)
      ∧ keep_by_age now (now - 14400) POST_MAX_AGE_HOURS = true
      ∧ keep_by_age now (now - 14401) POST_MAX_AGE_HOURS = false := by
  intro now created_at horizon
  have h3600 : (0 : ℚ) < 3600 := by norm_num
  refine ⟨?_, ?_, ?_⟩
  · unfold keep_by_age age_hours
    rw [Bool.not_eq_true', decide_eq_false_iff_not, gt_iff_lt, not_lt,
      div_le_iff₀ h3600, mul_comm]
  · unfold keep_by_age age_hours POST_MAX_AGE_HOURS
    rw [Bool.not_eq_true', decide_eq_false_iff_not, gt_iff_lt, not_lt]
    have h : ((now - (now - 14400) : ℤ) : ℚ) = 14400 := by push_cast; ring
    rw [h]
    norm_num
  · unfold keep_by_age age_hours POST_MAX_AGE_HOURS
    rw [Bool.not_eq_false', decide_eq_true_eq, gt_iff_lt]
    have h : ((now - (now - 14401) : ℤ) : ℚ) = 14401 := by push_cast; ring
    rw [h]
    norm_num

/-- C7: the post-id derivation priority: a truthy explicit `id`
attribute wins, with the fixed `"t3_"` prefix stripped when present;
a falsy attribute falls back to the URL segment after `"/comments/"`;
and an underivable id (including an empty one) makes the record be
skipped — an accepted id is never an empty placeholder. -/
theorem post_id_derivation_priority :
    ∀ (a url : String) (oa : Option String),
      (a ≠ "" → "t3_".toList.isPrefixOf a.toList = true →
        String.mk (a.toList.drop 3) ≠ "" →
        final_post_id (some a) url = some (String.mk (a.toList.drop 3)))
      ∧ (a ≠ "" → "t3_".toList.isPrefixOf a.toList = false →
        final_post_id (some a) url = some a)
      ∧ (truthy oa = false → ∀ s, final_post_id oa url = some s →
        extract_post_id_from_url url = some s)
      ∧ (truthy oa = false → extract_post_id_from_url url = none →
        final_post_id oa url = none)
      ∧ (∀ s, final_post_id oa url = some s → s ≠ "") := by
  intro a url oa
  refine ⟨?_, ?_, ?_, ?_, ?_⟩
  · intro ha hpre hne
    have hcond : (truthy (some a)
        && "t3_".toList.isPrefixOf ((some a).getD "").toList) = true := by
      have h1 : truthy (some a) = true := by simp [truthy, ha]
      have h2 : "t3_".toList.isPrefixOf ((some a).getD "").toList = true := hpre
      rw [h1, h2]
      rfl
    rw [final_post_id, derive_post_id, if_pos hcond]
    dsimp only
    simp only [Option.getD_some]
    rw [if_neg hne]
  · intro ha hpre
    have hcond : (truthy (some a)
        && "t3_".toList.isPrefixOf ((some a).getD "").toList) = false := by
      have h2 : "t3_".toList.isPrefixOf ((some a).getD "").toList = false := hpre
      rw [h2, Bool.and_false]
    have ht : truthy (some a) = true := by simp [truthy, ha]
    rw [final_post_id, derive_post_id, if_neg (ne_true_of_eq_false hcond),
      if_pos ht]
    dsimp only
    rw [if_neg ha]
  · intro hoa s hs
    have hD : derive_post_id oa url = extract_post_id_from_url url := by
      rw [derive_post_id, if_neg, if_neg (ne_true_of_eq_false hoa)]
      simp [hoa]
    rw [final_post_id, hD] at hs
    cases hE : extract_post_id_from_url url with
    | none => rw [hE] at hs; exact absurd hs (by simp)
    | some t =>
      rw [hE] at hs
      dsimp only at hs
      by_cases ht : t = ""
      · rw [if_pos ht] at hs
        exact absurd hs (by simp)
      · rw [if_neg ht] at hs
        exact hs
  · intro hoa hE
    have hD : derive_post_id oa url = extract_post_id_from_url url := by
      rw [derive_post_id, if_neg, if_neg (ne_true_of_eq_false hoa)]
      simp [hoa]
    rw [final_post_id, hD, hE]
  · intro s hs
    rw [final_post_id] at hs
    cases hD : derive_post_id oa url with
    | none => rw [hD] at hs; exact absurd hs (by simp)
    | some t =>
      rw [hD] at hs
      dsimp only at hs
      by_cases ht : t = ""
      · rw [if_pos ht] at hs
        exact absurd hs (by simp)
      · rw [if_neg ht] at hs
        rw [← Option.some_inj.mp hs]
        exact ht

/-- C9: `upsert_source_description` (modelled from the spec, the
routine being absent from `src/`) keys rows by source name: after an
upsert, the row keyed by the source carries the latest description and
timestamp, rows with other keys are untouched, a row for the source
exists, and a store with at most one row per key keeps exactly one row
for that source. -/
theorem upsert_source_description_spec :
    ∀ (store : List SourceDesc) (src text : String) (now : ℤ),
      (∀ d ∈ upsert_source_description store src text now,
        d.source = src → d.description = text ∧ d.updated_at = now)
      ∧ (∀ d ∈ store, d.source ≠ src →
        d ∈ upsert_source_description store src text now)
      ∧ (∃ d ∈ upsert_source_description store src text now, d.source = src)
      ∧ (store.countP (fun d => d.source == src) ≤ 1 →
        (upsert_source_description store src text now).countP
          (fun d => d.source == src) = 1) := by
  intro store src text now
  by_cases hAny : store.any (fun d => d.source == src) = true
  · simp only [upsert_source_description, hAny, if_true]
    refine ⟨?_, ?_, ?_, ?_⟩
    · intro d hd hsrc
      rcases List.mem_map.mp hd with ⟨x, _, hfx⟩
      by_cases hx : x.source = src
      · rw [if_pos hx] at hfx
        rw [← hfx]
        exact ⟨rfl, rfl⟩
      · rw [if_neg hx] at hfx
        subst hfx
        exact absurd hsrc hx
    · intro d hd hne
      have hmem := List.mem_map_of_mem (fun e : SourceDesc =>
        if e.source = src then
          ({ source := src, description := text, updated_at := now } :
            SourceDesc)
        else e) hd
      dsimp only at hmem
      rwa [if_neg hne] at hmem
    · rcases List.any_eq_true.mp hAny with ⟨x, hx, hpx⟩
      have hxsrc : x.source = src := by simpa using hpx
      have hmem := List.mem_map_of_mem (fun e : SourceDesc =>
        if e.source = src then
          ({ source := src, description := text, updated_at := now } :
            SourceDesc)
        else e) hx
      dsimp only at hmem
      rw [if_pos hxsrc] at hmem
      exact ⟨_, hmem, rfl⟩
    · intro hle
      rw [List.countP_map]
      have hcong : store.countP
            ((fun d : SourceDesc => d.source == src) ∘ fun d =>
              if d.source = src then
                { source := src, description := text, updated_at := now }
              else d)
          = store.countP (fun d => d.source == src) := by
        apply List.countP_congr
        intro x _
        by_cases hx : x.source = src <;> simp [hx]
      rw [hcong]
      have hpos : 0 < store.countP (fun d => d.source == src) := by
        rw [List.countP_pos_iff]
        rcases List.any_eq_true.mp hAny with ⟨x, hx, hpx⟩
        exact ⟨x, hx, hpx⟩
      omega
  · have hAny' : store.any (fun d => d.source == src) = false := by
      simpa using hAny
    simp only [upsert_source_description, hAny', Bool.false_eq_true, if_false]
    have hnone : ∀ d ∈ store, d.source ≠ src := by
      intro d hd
      have := List.any_eq_false.mp hAny' d hd
      simpa using this
    refine ⟨?_, ?_, ?_, ?_⟩
    · intro d hd hsrc
      rcases List.mem_append.mp hd with hmem | hmem
      · exact absurd hsrc (hnone d hmem)
      · rcases List.mem_singleton.mp hmem with rfl
        exact ⟨rfl, rfl⟩
    · intro d hd _
      exact List.mem_append_left _ hd
    · exact ⟨{ source := src, description := text, updated_at := now },
        List.mem_append_right _ (List.mem_singleton.mpr rfl), rfl⟩
    · intro _
      rw [List.countP_append]
      have h0 : store.countP (fun d => d.source == src) = 0 := by
        rw [List.countP_eq_zero]
        intro d hd
        simpa using hnone d hd
      simp [h0, List.countP_cons]

/-- C10: the consumer-side age bound is strict: a record whose
`created_at` equals `NOW() − max_age_hours` exactly is never returned
by the claim query, whereas the discovery-side age filter keeps a
record at exactly its horizon boundary. -/
theorem claim_age_boundary_strict :
    ∀ (db : List Row) (limit : ℕ) (max_age_hours now : ℤ) (r : Row),
      r.created_at = now - 3600 * max_age_hours →
      r ∉ fetch_next_posts_to_comment db limit max_age_hours now
      ∧ keep_by_age now (now - 3600 * max_age_hours)
          ((max_age_hours : ℤ) : ℚ) = true := by
  intro db limit h now r hr
  constructor
  · intro hmem
    have h1 : r ∈ List.insertionSort seenAtDesc
        (db.filter (eligible h now)) := List.mem_of_mem_take hmem
    have h2 : r ∈ db.filter (eligible h now) :=
      (List.mem_insertionSort seenAtDesc).mp h1
    have h3 : eligible h now r = true := (List.mem_filter.mp h2).2
    have h4 : now - 3600 * h < r.created_at := by
      have := (Bool.and_eq_true _ _).mp h3
      exact of_decide_eq_true this.2
    rw [hr] at h4
    exact lt_irrefl _ h4
  · unfold keep_by_age age_hours
    rw [Bool.not_eq_true', decide_eq_false_iff_not, gt_iff_lt, not_lt]
    have hc : ((now - (now - 3600 * h) : ℤ) : ℚ) = 3600 * (h : ℚ) := by
      push_cast
      ring
    rw [hc, mul_comm, mul_div_assoc]
    norm_num

/-- C1: upserting a post id that is already present is a no-op (the
pre-existing row is never modified and no error is raised), upserting
the same id twice equals upserting it once, and on a store without the
id the first insert creates exactly one row for it, with `commented =
false` and `seen_at` set to the insert-time instant. -/
theorem insert_reddit_post_upsert :
    ∀ (db : List Row) (sub pid url : String) (score created now : ℤ)
      (sub2 url2 : String) (score2 created2 now2 : ℤ),
      (db.any (fun r => r.post_id == pid) = true →
        insert_reddit_post db sub pid url score created now = db)
      ∧ insert_reddit_post (insert_reddit_post db sub pid url score created now)
          sub2 pid url2 score2 created2 now2
        = insert_reddit_post db sub pid url score created now
      ∧ (db.countP (fun r => r.post_id == pid) = 0 →
        (insert_reddit_post db sub pid url score created now).countP
            (fun r => r.post_id == pid) = 1
        ∧ ∀ r ∈ insert_reddit_post db sub pid url score created now,
            r.post_id = pid → r.commented = false ∧ r.seen_at = now) := by
  intro db sub pid url score created now sub2 url2 score2 created2 now2
  refine ⟨?_, ?_, ?_⟩
  · intro h
    rw [insert_reddit_post, if_pos h]
  · by_cases h : db.any (fun r => r.post_id == pid) = true
    · have hin : insert_reddit_post db sub pid url score created now = db := by
        rw [insert_reddit_post, if_pos h]
      rw [hin, insert_reddit_post, if_pos h]
    · have hfirst : insert_reddit_post db sub pid url score created now
          = db ++ [{ id := db.length, subreddit := sub, post_id := pid,
                     post_url := url, title := none, score := score,
                     created_at := created, seen_at := now,
                     commented := false }] := by
        rw [insert_reddit_post, if_neg h]
      have hany : (insert_reddit_post db sub pid url score created
          now).any (fun r => r.post_id == pid) = true := by
        rw [hfirst, List.any_append]
        simp
      rw [insert_reddit_post, if_pos hany]
  · intro h0
    have h : ¬ db.any (fun r => r.post_id == pid) = true := by
      rw [List.any_eq_true]
      rintro ⟨x, hx, hpx⟩
      have := List.countP_eq_zero.mp h0 x hx
      exact this hpx
    rw [insert_reddit_post, if_neg h]
    constructor
    · rw [List.countP_append, h0, List.countP_cons]
      simp
    · intro r hr hpid
      rcases List.mem_append.mp hr with hmem | hmem
      · have := List.countP_eq_zero.mp h0 r hmem
        exact absurd (by simp [hpid]) this
      · rcases List.mem_singleton.mp hmem with rfl
        exact ⟨rfl, rfl⟩

/-- C1 witness: on the empty store, a double insert of `"abc"` equals a
single insert, which has exactly one row for `"abc"`, uncommented and
stamped with the first insert's `seen_at`. -/
theorem insert_reddit_post_upsert_witness :
    insert_reddit_post (insert_reddit_post [] "r1" "abc" "u" 5 100 200)
        "r2" "abc" "u2" 9 300 400
      = insert_reddit_post [] "r1" "abc" "u" 5 100 200
    ∧ (insert_reddit_post [] "r1" "abc" "u" 5 100 200).countP
        (fun r => r.post_id == "abc") = 1
    ∧ ∀ r ∈ insert_reddit_post [] "r1" "abc" "u" 5 100 200,
        r.post_id = "abc" → r.commented = false ∧ r.seen_at = 200 := by
  have h := insert_reddit_post_upsert [] "r1" "abc" "u" 5 100 200
    "r2" "u2" 9 300 400
  exact ⟨h.2.1, (h.2.2 (by decide)).1, (h.2.2 (by decide)).2⟩

/-- C8: for any draw of the batch-size random integer in `[BATCH_MIN,
BATCH_MAX]` and any reordering the sampling and shuffling oracles
produce, the selected batch has size `min |subs| draw` (the draw capped
at the number of configured sources), contains no source twice, draws
only configured sources, and the independently shuffled batch keeps
those properties; with the six configured sources the shuffled batch
always has between 1 and 6 members. -/
theorem batch_selection_spec :
    ∀ (subs : List String) (draw : ℕ) (perm shuffled : List String),
      subs.Nodup → perm.Perm subs → BATCH_MIN ≤ draw → draw ≤ BATCH_MAX →
      shuffled.Perm (get_subreddits_for_this_loop subs draw perm) →
      (get_subreddits_for_this_loop subs draw perm).length
          = min subs.length draw
      ∧ (get_subreddits_for_this_loop subs draw perm).Nodup
      ∧ (∀ x ∈ get_subreddits_for_this_loop subs draw perm, x ∈ subs)
      ∧ shuffled.Nodup
      ∧ (∀ x ∈ shuffled, x ∈ subs)
      ∧ (subs.length = 6 → 1 ≤ shuffled.length ∧ shuffled.length ≤ 6) := by
  intro subs draw perm shuffled hnd hperm hmin _hmax hshuf
  by_cases hempty : subs.isEmpty
  · have hsubs : subs = [] := List.isEmpty_iff.mp hempty
    subst hsubs
    have hbatch : get_subreddits_for_this_loop [] draw perm = [] := by
      rw [get_subreddits_for_this_loop]
      rfl
    rw [hbatch] at hshuf ⊢
    have hshufnil : shuffled = [] := List.Perm.eq_nil hshuf
    subst hshufnil
    refine ⟨by simp [batch_size], List.nodup_nil, by simp, List.nodup_nil,
      by simp, ?_⟩
    intro hlen
    simp at hlen
  · have hbatch : get_subreddits_for_this_loop subs draw perm
        = perm.take (batch_size subs draw) := by
      rw [get_subreddits_for_this_loop, if_neg (by simp [hempty])]
    have hlenperm : perm.length = subs.length := hperm.length_eq
    have hk : batch_size subs draw ≤ perm.length := by
      rw [hlenperm]
      exact min_le_left _ _
    have hlen : (get_subreddits_for_this_loop subs draw perm).length
        = min subs.length draw := by
      rw [hbatch, List.length_take, batch_size]
      omega
    have hpermnd : perm.Nodup := (hperm.nodup_iff).mpr hnd
    have hbatchnd : (get_subreddits_for_this_loop subs draw perm).Nodup := by
      rw [hbatch]
      exact hpermnd.sublist (List.take_sublist _ _)
    have hbatchmem : ∀ x ∈ get_subreddits_for_this_loop subs draw perm,
        x ∈ subs := by
      intro x hx
      rw [hbatch] at hx
      exact hperm.mem_iff.mp (List.mem_of_mem_take hx)
    refine ⟨hlen, hbatchnd, hbatchmem, hshuf.nodup_iff.mpr hbatchnd,
      fun x hx => hbatchmem x (hshuf.mem_iff.mp hx), ?_⟩
    intro hsix
    have hshuflen : shuffled.length = min subs.length draw := by
      rw [hshuf.length_eq, hlen]
    rw [hshuflen, hsix]
    have h6 : 6 ≤ draw := le_trans (by norm_num [BATCH_MIN]) hmin
    omega

/-- C8 witness: with the six configured subreddits, draw 13 and identity
oracles, the selected batch has the capped size `min 6 13 = 6`, is
duplicate-free, and stays within 1..6 after shuffling. -/
theorem batch_selection_spec_witness :
    (get_subreddits_for_this_loop SUBREDDITS 13 SUBREDDITS).length
        = min SUBREDDITS.length 13
    ∧ (get_subreddits_for_this_loop SUBREDDITS 13 SUBREDDITS).Nodup
    ∧ (1 ≤ (get_subreddits_for_this_loop SUBREDDITS 13 SUBREDDITS).length
        ∧ (get_subreddits_for_this_loop SUBREDDITS 13 SUBREDDITS).length
          ≤ 6) := by
  have h := batch_selection_spec SUBREDDITS 13 SUBREDDITS
    (get_subreddits_for_this_loop SUBREDDITS 13 SUBREDDITS)
    (by decide) (List.Perm.refl _) (by decide) (by decide)
    (List.Perm.refl _)
  exact ⟨h.1, h.2.1, h.2.2.2.2.2 (by decide)⟩

/-- C5: the claim query returns at most `limit` records, every returned
record is uncommented with `created_at` inside the age window, and the
result is ordered by `seen_at` descending (most recently discovered
first). -/
theorem fetch_next_posts_spec :
    ∀ (db : List Row) (limit : ℕ) (max_age_hours now : ℤ),
      (fetch_next_posts_to_comment db limit max_age_hours now).length ≤ limit
      ∧ (∀ r ∈ fetch_next_posts_to_comment db limit max_age_hours now,
          r.commented = false ∧ now - 3600 * max_age_hours < r.created_at)
      ∧ (fetch_next_posts_to_comment db limit max_age_hours now).Pairwise
          seenAtDesc := by
  intro db limit h now
  refine ⟨?_, ?_, ?_⟩
  · rw [fetch_next_posts_to_comment]
    exact List.length_take_le _ _
  · intro r hr
    have h2 : r ∈ db.filter (eligible h now) :=
      (List.mem_insertionSort seenAtDesc).mp (List.mem_of_mem_take hr)
    have h3 : eligible h now r = true := (List.mem_filter.mp h2).2
    have h4 := (Bool.and_eq_true _ _).mp h3
    exact ⟨by simpa using h4.1, of_decide_eq_true h4.2⟩
  · rw [fetch_next_posts_to_comment]
    have hs : (List.insertionSort seenAtDesc
        (db.filter (eligible h now))).Pairwise seenAtDesc :=
      List.sorted_insertionSort seenAtDesc _
    exact hs.sublist (List.take_sublist _ _)

/-- C5 witness: on a two-row store with limit 1, the claim query returns
one record, the more recently seen row is returned and satisfies the
window predicate, and the result is sorted by `seen_at` descending. -/
theorem fetch_next_posts_spec_witness :
    (fetch_next_posts_to_comment
        [{ id := 1, subreddit := "s", post_id := "a", post_url := "u",
           title := none, score := 0, created_at := 9000, seen_at := 50,
           commented := false },
         { id := 2, subreddit := "s", post_id := "b", post_url := "u",
           title := none, score := 0, created_at := 9500, seen_at := 80,
           commented := false }] 1 4 10000).length ≤ 1
    ∧ (({ id := 2, subreddit := "s", post_id := "b", post_url := "u",
          title := none, score := 0, created_at := 9500, seen_at := 80,
          commented := false } : Row).commented = false
        ∧ (10000 : ℤ) - 3600 * 4
          < ({ id := 2, subreddit := "s", post_id := "b", post_url := "u",
               title := none, score := 0, created_at := 9500, seen_at := 80,
               commented := false } : Row).created_at)
    ∧ (fetch_next_posts_to_comment
        [{ id := 1, subreddit := "s", post_id := "a", post_url := "u",
           title := none, score := 0, created_at := 9000, seen_at := 50,
           commented := false },
         { id := 2, subreddit := "s", post_id := "b", post_url := "u",
           title := none, score := 0, created_at := 9500, seen_at := 80,
           commented := false }] 1 4 10000).Pairwise seenAtDesc := by
  have h := fetch_next_posts_spec
    [{ id := 1, subreddit := "s", post_id := "a", post_url := "u",
       title := none, score := 0, created_at := 9000, seen_at := 50,
       commented := false },
     { id := 2, subreddit := "s", post_id := "b", post_url := "u",
       title := none, score := 0, created_at := 9500, seen_at := 80,
       commented := false }] 1 4 10000
  exact ⟨h.1, h.2.1 _ (by decide), h.2.2⟩

/-- C2: after `mark_commented id` the claim query never returns a record
with that id; `mark_failed id` leaves the record uncommented, and when
the record is inside the age window and the limit accommodates the
eligible rows, the very next claim query returns it again — no
backoff, no retry counter, no poison state. -/
theorem queue_ack_semantics :
    ∀ (db : List Row) (rid : ℕ) (limit : ℕ) (max_age_hours now : ℤ),
      (∀ r ∈ fetch_next_posts_to_comment (mark_commented db rid) limit
          max_age_hours now, r.id ≠ rid)
      ∧ (∀ r ∈ mark_failed db rid, r.id = rid → r.commented = false)
      ∧ (∀ r ∈ db, r.id = rid →
          now - 3600 * max_age_hours < r.created_at →
          ((mark_failed db rid).filter (eligible max_age_hours now)).length
            ≤ limit →
          ∃ q ∈ fetch_next_posts_to_comment (mark_failed db rid) limit
            max_age_hours now, q.id = rid) := by
  intro db rid limit h now
  refine ⟨?_, ?_, ?_⟩
  · intro r hr
    have h2 : r ∈ (mark_commented db rid).filter (eligible h now) :=
      (List.mem_insertionSort seenAtDesc).mp (List.mem_of_mem_take hr)
    have h3 := List.mem_filter.mp h2
    have hcomm : r.commented = false := by
      have h4 := (Bool.and_eq_true _ _).mp h3.2
      simpa using h4.1
    rcases List.mem_map.mp h3.1 with ⟨x, _, hfx⟩
    by_cases hxid : x.id = rid
    · rw [if_pos hxid] at hfx
      rw [← hfx] at hcomm
      simp at hcomm
    · rw [if_neg hxid] at hfx
      rw [← hfx]
      exact hxid
  · intro r hr hid
    rcases List.mem_map.mp hr with ⟨x, _, hfx⟩
    by_cases hxid : x.id = rid
    · rw [if_pos hxid] at hfx
      rw [← hfx]
    · rw [if_neg hxid] at hfx
      rw [← hfx] at hid
      exact absurd hid hxid
  · intro r hr hid hage hlim
    have hq : ({ r with commented := false } : Row) ∈ mark_failed db rid := by
      have hmem := List.mem_map_of_mem (fun e : Row =>
        if e.id = rid then { e with commented := false } else e) hr
      dsimp only at hmem
      rwa [if_pos hid] at hmem
    have helig : eligible h now ({ r with commented := false } : Row)
        = true := by
      rw [eligible]
      simp [hage]
    have hsortmem : ({ r with commented := false } : Row)
        ∈ List.insertionSort seenAtDesc
          ((mark_failed db rid).filter (eligible h now)) :=
      (List.mem_insertionSort seenAtDesc).mpr
        (List.mem_filter.mpr ⟨hq, helig⟩)
    have htake : fetch_next_posts_to_comment (mark_failed db rid) limit
        h now = List.insertionSort seenAtDesc
          ((mark_failed db rid).filter (eligible h now)) := by
      rw [fetch_next_posts_to_comment]
      apply List.take_of_length_le
      rw [List.length_insertionSort]
      exact hlim
    refine ⟨{ r with commented := false }, ?_, hid⟩
    rw [htake]
    exact hsortmem

/-- C2 witness: on a two-row store, after acknowledging row 1 as
commented the claim query only returns the other row (id ≠ 1); after
marking row 1 failed it is uncommented and the very next claim query
returns a record with id 1 again. -/
theorem queue_ack_semantics_witness :
    ({ id := 2, subreddit := "s", post_id := "b", post_url := "u",
       title := none, score := 0, created_at := 9000, seen_at := 20,
       commented := false } : Row).id ≠ 1
    ∧ ({ id := 1, subreddit := "s", post_id := "a", post_url := "u",
         title := none, score := 0, created_at := 9000, seen_at := 10,
         commented := false } : Row).commented = false
    ∧ ∃ q ∈ fetch_next_posts_to_comment
        (mark_failed
          [{ id := 1, subreddit := "s", post_id := "a", post_url := "u",
             title := none, score := 0, created_at := 9000, seen_at := 10,
             commented := false },
           { id := 2, subreddit := "s", post_id := "b", post_url := "u",
             title := none, score := 0, created_at := 9000, seen_at := 20,
             commented := false }] 1) 5 4 10000, q.id = 1 := by
  have h := queue_ack_semantics
    [{ id := 1, subreddit := "s", post_id := "a", post_url := "u",
       title := none, score := 0, created_at := 9000, seen_at := 10,
       commented := false },
     { id := 2, subreddit := "s", post_id := "b", post_url := "u",
       title := none, score := 0, created_at := 9000, seen_at := 20,
       commented := false }] 1 5 4 10000
  exact ⟨h.1 (⟨2, "s", "b", "u", none, 0, 9000, 20, false⟩ : Row) (by decide),
    h.2.1 (⟨1, "s", "a", "u", none, 0, 9000, 10, false⟩ : Row)
      (by decide) (by decide),
    h.2.2 (⟨1, "s", "a", "u", none, 0, 9000, 10, false⟩ : Row)
      (by decide) (by decide) (by decide) (by decide)⟩

/-- C7 witness: a `"t3_"`-prefixed attribute is stripped; with no
attribute, the id accepted by the pipeline is the URL segment after
`"/comments/"`. -/
theorem post_id_derivation_priority_witness :
    final_post_id (some "t3_1p1n96a") "x"
      = some (String.mk ("t3_1p1n96a".toList.drop 3))
    ∧ extract_post_id_from_url
        "https://www.reddit.com/r/test/comments/abc123/hello"
      = some "abc123" := by
  have h1 := post_id_derivation_priority "t3_1p1n96a" "x" none
  have h2 := post_id_derivation_priority "a"
    "https://www.reddit.com/r/test/comments/abc123/hello" none
  exact ⟨h1.1 (by decide) (by decide) (by decide),
    h2.2.2.1 (by decide) "abc123" (by decide)⟩

/-- C9 witness: upserting into the empty description store produces the
new row with the given text and timestamp, and exactly one row for the
source key. -/
theorem upsert_source_description_spec_witness :
    (({ source := "src", description := "desc", updated_at := 42 } :
        SourceDesc).description = "desc"
      ∧ ({ source := "src", description := "desc", updated_at := 42 } :
        SourceDesc).updated_at = 42)
    ∧ (∃ d ∈ upsert_source_description [] "src" "desc" 42,
        d.source = "src")
    ∧ (upsert_source_description [] "src" "desc" 42).countP
        (fun d => d.source == "src") = 1 := by
  have h := upsert_source_description_spec [] "src" "desc" 42
  exact ⟨h.1 ⟨"src", "desc", 42⟩ (by decide) rfl, h.2.2.1,
    h.2.2.2 (by decide)⟩

/-- C10 witness: a row created exactly `4` hours before `now = 14400` is
not returned by the claim query, while the discovery filter keeps the
boundary instant. -/
theorem claim_age_boundary_strict_witness :
    (⟨0, "s", "a", "u", none, 0, 0, 0, false⟩ : Row)
      ∉ fetch_next_posts_to_comment [] 5 4 14400
    ∧ keep_by_age 14400 (14400 - 3600 * 4) (((4 : ℤ) : ℚ)) = true :=
  claim_age_boundary_strict [] 5 4 14400
    ⟨0, "s", "a", "u", none, 0, 0, 0, false⟩ (by decide)

end RedditCBL
